import Mathlib

/-!
Verification development for the qpsphere repository.

The definitions below are shallow embeddings of the Python source files
`qpsphere/imagefit/interp.py`, `qpsphere/imagefit/alg.py`,
`qpsphere/edgefit.py`, `qpsphere/models/mod_rytov_sc.py`,
`qpsphere/models/__init__.py` and `qpsphere/cnvnc.py`.

Real-valued data carried by phase images is modelled with `ℚ` wherever the
source only performs field operations, and with `NF` (a model of IEEE-style
special values: `nan`, `inf`, `-inf`, finite) where numpy's division
semantics matter.  The forward model (a black-box external dependency in the
spec) and scipy's `RectBivariateSpline` resampling are abstract function
parameters, exactly as the spec treats them.
-/

/-- A pixel of a 2-d image, in ndarray index coordinates. -/
abbrev Pixel := ℕ × ℕ

/-- A real-valued 2-d image, as produced by the forward models. -/
abbrev Image := Pixel → ℚ

/-- numpy floating point values: finite rationals plus the special values
`nan`, `inf` and `-inf` that numpy produces on invalid operations
(it does not raise). -/
inductive NF where
  | nan : NF
  | inf : NF
  | ninf : NF
  | num : ℚ → NF
deriving DecidableEq

/-- An image of numpy floats (may contain `nan` entries). -/
abbrev NFImage := Pixel → NF

/-- numpy addition (`nan` propagates, `inf + -inf = nan`). -/
def nfAdd : NF → NF → NF
  | .nan, _ => .nan
  | _, .nan => .nan
  | .inf, .ninf => .nan
  | .ninf, .inf => .nan
  | .inf, _ => .inf
  | _, .inf => .inf
  | .ninf, _ => .ninf
  | _, .ninf => .ninf
  | .num a, .num b => .num (a + b)

/-- numpy subtraction of a finite scalar from a numpy float. -/
def nfSubQ (x : NF) (q : ℚ) : NF := nfAdd x (.num (-q))

/-- numpy addition of a finite scalar to a numpy float. -/
def nfAddQ (x : NF) (q : ℚ) : NF := nfAdd x (.num q)

/-- numpy division of two finite scalars: `0/0 = nan`, `a/0 = ±inf` for
`a ≠ 0`, ordinary division otherwise (numpy warns but does not raise). -/
def nfDiv (a b : ℚ) : NF :=
  if b ≠ 0 then .num (a / b)
  else if a = 0 then .nan
  else if 0 < a then .inf
  else .ninf

/-- numpy absolute value. -/
def nfAbs : NF → NF
  | .nan => .nan
  | .inf => .inf
  | .ninf => .inf
  | .num a => .num |a|

/-- numpy multiplication by a finite scalar (`0 * inf = nan`). -/
def nfScale (q : ℚ) : NF → NF
  | .nan => .nan
  | .num a => .num (q * a)
  | .inf => if 0 < q then .inf else if q < 0 then .ninf else .nan
  | .ninf => if 0 < q then .ninf else if q < 0 then .inf else .nan

/-- numpy strict greater-than: every comparison involving `nan` is `False`. -/
def nfGT : NF → NF → Bool
  | .nan, _ => false
  | _, .nan => false
  | .inf, .inf => false
  | .inf, _ => true
  | .ninf, _ => false
  | .num _, .inf => false
  | .num _, .ninf => true
  | .num a, .num b => decide (b < a)

/-- numpy strict less-than: every comparison involving `nan` is `False`. -/
def nfLT (a b : NF) : Bool := nfGT b a

/-- numpy pairwise maximum (`nan` propagates, as in `ndarray.max`). -/
def nfMax2 : NF → NF → NF
  | .nan, _ => .nan
  | _, .nan => .nan
  | .inf, _ => .inf
  | _, .inf => .inf
  | .ninf, x => x
  | x, .ninf => x
  | .num a, .num b => .num (max a b)

/-- numpy `ndarray.max` over the values of a (row-major flattened) array.
numpy raises on an empty array; the `[]` case is unreachable for the
nonempty grids the algorithm works on. -/
def nfMaxList : List NF → NF
  | [] => .nan
  | a :: rest => rest.foldl nfMax2 a

/-- The finite value of a numpy float, if it is finite. -/
def NF.toRat? : NF → Option ℚ
  | .num a => some a
  | _ => none

/-- Row-major list of the pixels of an `sx × sy` image
(the flattening order used by numpy). -/
def pixList (sx sy : ℕ) : List Pixel :=
  (List.range sx).flatMap fun i => (List.range sy).map fun j => (i, j)

/-- Mutable state of `SpherePhaseInterpolator` (file
`qpsphere/imagefit/interp.py`).  The three cache components mirror the
source exactly: `nBorder`/`rBorder` are the 3×3 float arrays
`_n_border`/`_r_border` (initialised to zero) and `borderPha` is the
dictionary `_border_pha` (a missing key is `none`).  The scattering model
itself is stored in the Python object but is an external function; here it
is passed to each operation instead. -/
structure SPIState where
  /-- current sphere radius `self.radius` [m] -/
  r : ℚ
  /-- current sphere index `self.sphere_index` -/
  n : ℚ
  /-- current background phase offset `self.pha_offset` -/
  phaOff : ℚ
  /-- current pixel offset in x `self.posx_offset` -/
  posx : ℚ
  /-- current pixel offset in y `self.posy_offset` -/
  posy : ℚ
  /-- half of current search interval for the refractive index `self.dn` -/
  dn : ℚ
  /-- half of current search interval for the radius `self.dr` [m] -/
  dr : ℚ
  /-- the array `self._n_border`, keyed by array indices `(idn+1, idr+1)` -/
  nBorder : Fin 3 × Fin 3 → ℚ
  /-- the array `self._r_border` -/
  rBorder : Fin 3 × Fin 3 → ℚ
  /-- the dictionary `self._border_pha` -/
  borderPha : Fin 3 × Fin 3 → Option Image

/-- Constructor `SpherePhaseInterpolator.__init__`: the state constructed from the
model keyword arguments (interp.py lines 49-79).  `dn` is
`abs((sphere_index - medium_index) * nrel)` and `dr` is `radius * rrel`;
the caches start out as zero arrays and an empty dictionary. -/
def SPIState.init (n0 r0 nmed cx cy phaOffset nrel rrel : ℚ) : SPIState :=
  { r := r0
    n := n0
    phaOff := phaOffset
    posx := cx
    posy := cy
    dn := |(n0 - nmed) * nrel|
    dr := r0 * rrel
    nBorder := fun _ => 0
    rBorder := fun _ => 0
    borderPha := fun _ => none }

/-- A forward scattering model: maps `(sphere_index, radius, center_x,
center_y)` to a phase image.  This is the external "Forward Model
Interface" of the spec; the remaining keyword arguments (medium index,
wavelength, pixel size, grid size) are fixed over one fit and therefore
omitted from the abstract signature. -/
abbrev ForwardModel := ℚ → ℚ → ℚ → ℚ → Image

/-- Method `SpherePhaseInterpolator.get_border_phase` (interp.py lines 124-167).
The index arguments are already shifted to array indices (`idn+1`,
`idr+1`), so `1` is the center.  The slot is valid when both stored keys
match the current evaluation point `(n + dn*(idn-1), r + dr*(idr-1))`;
on a hit the dictionary is read (a missing key would raise `KeyError` in
Python, modelled as `none`); on a miss the model is invoked at the
*current* center offsets and the result cached. -/
def getBorderPhase (model : ForwardModel) (s : SPIState) (idn idr : Fin 3) :
    Option (Image × SPIState) :=
  let nv := s.n + s.dn * ((idn : ℚ) - 1)
  let rv := s.r + s.dr * ((idr : ℚ) - 1)
  if s.nBorder (idn, idr) = nv ∧ s.rBorder (idn, idr) = rv then
    (s.borderPha (idn, idr)).map fun pha => (pha, s)
  else
    let pha := model nv rv s.posx s.posy
    some (pha,
      { s with
        nBorder := Function.update s.nBorder (idn, idr) nv
        rBorder := Function.update s.rBorder (idn, idr) rv
        borderPha := Function.update s.borderPha (idn, idr) (some pha) })

/-- The elementwise linear interpolation
`left + (righ - left) * dist / dmax` of interp.py line 231, with numpy's
division semantics (`dmax = 0` produces `nan`/`inf` entries, not an
exception). -/
def interpImage (left righ : Image) (dist dmax : ℚ) : NFImage :=
  fun p => nfAdd (.num (left p)) (nfDiv ((righ p - left p) * dist) dmax)

/-- A lateral resampling function standing for the
`scipy.interpolate.RectBivariateSpline` evaluation at pixel coordinates
shifted by `(delta_offset_x, delta_offset_y)` (interp.py lines 235-246).
scipy is an external dependency, so the resampler is abstract. -/
abbrev Resampler := NFImage → ℚ → ℚ → NFImage

/-- Method `SpherePhaseInterpolator.get_phase` (interp.py lines 169-251).
`none` models a raised `AssertionError` (line 203-210) or a `KeyError`
from the border cache.  Following the source: defaults are the current
values; the center border field is fetched first; the direction of the
second border field depends on the sign of `dist`; `dist` is then made
non-negative; the interpolated array is resampled only when an offset is
nonzero; finally `pha_offset` is added. -/
def get_phase (model : ForwardModel) (resample : Resampler) (s : SPIState)
    (nintp? rintp? : Option ℚ) (dox doy : ℚ) : Option (NFImage × SPIState) :=
  let nintp := nintp?.getD s.n
  let rintp := rintp?.getD s.r
  if (rintp = s.r ∨ nintp = s.n) ∧
      s.r - s.dr ≤ rintp ∧ rintp ≤ s.r + s.dr ∧
      s.n - s.dn ≤ nintp ∧ nintp ≤ s.n + s.dn then
    (getBorderPhase model s 1 1).bind fun ls =>
      let dd : ℚ × ℚ × Fin 3 × Fin 3 :=
        if rintp = s.r then
          (nintp - s.n, s.dn, if nintp - s.n < 0 then (0, 1) else (2, 1))
        else
          (rintp - s.r, s.dr, if rintp - s.r < 0 then (1, 0) else (1, 2))
      (getBorderPhase model ls.2 dd.2.2.1 dd.2.2.2).bind fun rs =>
        let phas := interpImage ls.1 rs.1 |dd.1| dd.2.1
        let phas2 := if dox ≠ 0 ∨ doy ≠ 0 then resample phas dox doy else phas
        some ((fun p => nfAddQ (phas2 p) s.phaOff), rs.2)
  else none

/-- Constant `range_ipol` of alg.py line 140: number of samples of the 1-d
line searches. -/
def range_ipol : ℕ := 47

/-- Constant `range_off` of alg.py line 141: per-axis sample count of the
lateral-offset grid search. -/
def range_off : ℕ := 13

/-- The "update accuracies" block of alg.py lines 225-235: after an
iteration the half-windows `spi.dn` / `spi.dr` are halved when the
minimising sample index lies strictly inside the central fifth of the
sample range (`range_ipol/2 ± range_ipol/10` with Python float division),
and are otherwise untouched. -/
def updateAccuracies (s : SPIState) (idn idr : ℕ) : SPIState :=
  let s1 :=
    if (range_ipol : ℚ) / 2 - (range_ipol : ℚ) / 10 < (idn : ℚ) ∧
        (idn : ℚ) < (range_ipol : ℚ) / 2 + (range_ipol : ℚ) / 10 then
      { s with dn := s.dn / 2 }
    else s
  if (range_ipol : ℚ) / 2 - (range_ipol : ℚ) / 10 < (idr : ℚ) ∧
      (idr : ℚ) < (range_ipol : ℚ) / 2 + (range_ipol : ℚ) / 10 then
    { s1 with dr := s1.dr / 2 }
  else s1

/-- Exact `np.linspace a b num` with `endpoint=True` (exact rational
arithmetic). -/
def linspace (a b : ℚ) (num : ℕ) : List ℚ :=
  (List.range num).map fun k => a + (b - a) * k / ((num : ℚ) - 1)

/-- numpy multiplication (`nan` propagates, `0 * inf = nan`). -/
def nfMul : NF → NF → NF
  | .nan, _ => .nan
  | _, .nan => .nan
  | .inf, .inf => .inf
  | .inf, .ninf => .ninf
  | .ninf, .inf => .ninf
  | .ninf, .ninf => .inf
  | .inf, .num b => if 0 < b then .inf else if b < 0 then .ninf else .nan
  | .num a, .inf => if 0 < a then .inf else if a < 0 then .ninf else .nan
  | .ninf, .num b => if 0 < b then .ninf else if b < 0 then .inf else .nan
  | .num a, .ninf => if 0 < a then .ninf else if a < 0 then .inf else .nan
  | .num a, .num b => .num (a * b)

/-- Function `sq_phase_diff` of alg.py lines 320-334: the sum of squared
differences `np.sum((pha_a - pha_b)**2)` between the target phase image
and a (possibly `nan`-valued) model image, over the `sx × sy` grid. -/
def sqPhaseDiff (sx sy : ℕ) (phase : Pixel → ℚ) (img : NFImage) : NF :=
  ((pixList sx sy).map fun p =>
    let d := nfAdd (.num (phase p)) (nfScale (-1) (img p))
    nfMul d d).foldl nfAdd (.num 0)

/-- numpy `np.argmin` over numpy floats: returns the index of the smallest
element, preferring the first occurrence; a `nan` wins over any non-`nan`
value (numpy's reduction order), so the first `nan` is returned when one
is present. -/
def nfArgminAux : List NF → ℕ → NF → ℕ → ℕ
  | [], _, _, bi => bi
  | a :: rest, i, bv, bi =>
    if nfLT a bv ∨ (a = .nan ∧ bv ≠ .nan) then nfArgminAux rest (i + 1) a i
    else nfArgminAux rest (i + 1) bv bi

/-- First-occurrence `np.argmin` on a list of numpy floats. -/
def nfArgmin : List NF → ℕ
  | [] => 0
  | a :: rest => nfArgminAux rest 1 a 0

/-- The 3rd per-iteration step of `match_phase` (alg.py lines 183-200):
a 13×13 grid search for the lateral offset.  `x = linspace(-dc, dc, 13)`;
`np.meshgrid(x, x)` flattened row-major pairs `(x[j], x[i])`; each probe
queries the interpolator with `delta_offset_x/y` and scores it with
`sq_phase_diff`; the first minimiser is chosen and its components are
*subtracted from* the running `posx_offset`/`posy_offset` (lines 197-200:
"offsets must be added incrementally, because they are not overridden").
`none` models a raised exception inside `get_phase`.
`probeStep` is the body of the probe loop (lines 188-191): one
`get_phase` query at a trial offset plus its `sq_phase_diff` score
appended to `lsqs`. -/
def probeStep (model : ForwardModel) (resample : Resampler) (sx sy : ℕ)
    (phase : Pixel → ℚ) (acc : Option (List NF × SPIState)) (off : ℚ × ℚ) :
    Option (List NF × SPIState) :=
  match acc with
  | none => none
  | some (errs, st) =>
    match get_phase model resample st none none off.1 off.2 with
    | none => none
    | some (img, st') =>
      some (errs ++ [sqPhaseDiff sx sy phase img], st')

/-- See `probeStep`: the full lateral-offset grid search and the
incremental update of the running center offsets
(alg.py lines 183-200). -/
def centerSearch (model : ForwardModel) (resample : Resampler) (sx sy : ℕ)
    (phase : Pixel → ℚ) (dc : ℚ) (s : SPIState) :
    Option (ℚ × ℚ × SPIState) :=
  let xs := linspace (-dc) dc range_off
  let offs := (List.range range_off).flatMap fun i =>
    (List.range range_off).map fun j => (xs.getD j 0, xs.getD i 0)
  let probe := offs.foldl (probeStep model resample sx sy phase)
    (some (([] : List NF), s))
  match probe with
  | none => none
  | some (errs, st) =>
    let idc := nfArgmin errs
    let dx := (offs.getD idc (0, 0)).1
    let dy := (offs.getD idc (0, 0)).2
    some (dx, dy, { st with posx := st.posx - dx, posy := st.posy - dy })

/-- The border width `max(5, min(cabphase.shape) // 5)` of alg.py
line 207. -/
def cbBorder (sx sy : ℕ) : ℕ := max 5 (min sx sy / 5)

/-- The interior region blanked by `cabphase[cb:-cb, cb:-cb] = np.nan`
(alg.py line 208); Python's slice `cb:-cb` covers indices
`cb ≤ i < size - cb`, which is empty when `size ≤ 2*cb`. -/
def isInterior (sx sy : ℕ) (p : Pixel) : Bool :=
  cbBorder sx sy ≤ p.1 && p.1 < sx - cbBorder sx sy &&
    cbBorder sx sy ≤ p.2 && p.2 < sy - cbBorder sx sy

/-- Applies both masks of alg.py lines 206-208 to the background phase
array `cabphase`: entries whose absolute value exceeds 1% of the array
maximum become `nan`, and so does the whole interior region.  (A `nan`
already present in `cabphase` makes the maximum `nan`, so the magnitude
comparison is `False` everywhere, exactly as in numpy.) -/
def maskedCab (sx sy : ℕ) (cab : NFImage) : NFImage :=
  let peak := nfMaxList ((pixList sx sy).map fun p => nfAbs (cab p))
  fun p =>
    if nfGT (nfAbs (cab p)) (nfScale (1 / 100) peak) then .nan
    else if isInterior sx sy p then .nan
    else cab p

/-- The value assigned to `spi.pha_offset` by alg.py lines 209-214:
`phai_offset = np.nanmean(cabphase - phase)` (the mean of the finite
entries, skipping `nan`s), replaced by `0` when it `isnan` (i.e. when no
entry is finite), then negated.  Infinite entries cannot arise in
`cabphase` (the interpolation of a no-argument `get_phase` call divides
`0` by `dn`), so `nanmean` is modelled on `nan`/finite values. -/
def newPhaOffset (sx sy : ℕ) (cab : NFImage) (phase : Pixel → ℚ) : ℚ :=
  let vals := (pixList sx sy).filterMap fun p =>
    (nfSubQ (maskedCab sx sy cab p) (phase p)).toRat?
  if vals.length = 0 then 0 else -(vals.sum / (vals.length : ℚ))

/-- The phase-offset re-estimation step of alg.py lines 202-214 (executed
unless `fix_pha_offset`): `cabphase = spi.get_phase() - spi.pha_offset`,
background masking, and the assignment `spi.pha_offset = -phai_offset`. -/
def phaOffsetStep (model : ForwardModel) (resample : Resampler)
    (sx sy : ℕ) (phase : Pixel → ℚ) (s : SPIState) : Option SPIState :=
  (get_phase model resample s none none 0 0).map fun x =>
    let cab : NFImage := fun p => nfSubQ (x.1 p) s.phaOff
    { x.2 with phaOff := newPhaOffset sx sy cab phase }

/-- Observable outcome of one iteration body of `match_phase` (alg.py
lines 155-223, steps 1-4): the interpolator state after the body, the
minimising indices `idn`, `idr` of the two 1-d line searches, and the
lateral offset `(deltax, deltay)` found by the grid search. -/
structure IterOut where
  state : SPIState
  idn : ℕ
  idr : ℕ
  dx : ℚ
  dy : ℚ

/-- The `while True` loop of `match_phase` (alg.py lines 148-282) with
its exact stopping logic; the body (steps 1-4) is a parameter.
Per source order: after the body, `spi.dn`/`spi.dr` are halved when the
minimiser is central (lines 225-235) and `dc` is halved when the found
offset is smaller (line 236-237); then, in this order: `ii < min_iter`
forces another iteration; `ii > max_iter` stops with `ii *= -1`;
a center movement `sqrt(dx²+dy²) > stop_dc` (when `stop_dc` is truthy)
forces another iteration; the convergence test
`|r-r_old|/r < stop_dr and |n-n_old| < stop_dn` stops with positive `ii`;
a `(n, r)` pair recorded more than twice stops with `ii *= -1`.
Recursion is on explicit fuel; `none` means the fuel ran out. -/
def runLoop (body : ℕ → SPIState → IterOut) (minIter maxIter : ℕ)
    (stopDc stopDr stopDn : ℚ) :
    ℕ → ℕ → SPIState → ℚ → List (ℚ × ℚ) → Option (ℤ × SPIState)
  | 0, _, _, _, _ => none
  | fuel + 1, ii, s, dc, recorder =>
    let ii' := ii + 1
    let rOld := s.r
    let nOld := s.n
    let out := body ii' s
    let s1 := updateAccuracies out.state out.idn out.idr
    let dc' := if out.dx ^ 2 + out.dy ^ 2 < dc ^ 2 then dc / 2 else dc
    if ii' < minIter then
      runLoop body minIter maxIter stopDc stopDr stopDn fuel ii' s1 dc' recorder
    else if maxIter < ii' then
      some (-(ii' : ℤ), s1)
    else if stopDc ≠ 0 ∧ (stopDc < 0 ∨ stopDc ^ 2 < out.dx ^ 2 + out.dy ^ 2) then
      runLoop body minIter maxIter stopDc stopDr stopDn fuel ii' s1 dc' recorder
    else if |s1.r - rOld| / s1.r < stopDr ∧ |s1.n - nOld| < stopDn then
      some ((ii' : ℤ), s1)
    else
      let recorder' := recorder ++ [(s1.n, s1.r)]
      if 2 < recorder'.count (s1.n, s1.r) then
        some (-(ii' : ℤ), s1)
      else
        runLoop body minIter maxIter stopDc stopDr stopDn fuel ii' s1 dc' recorder'

/-- Python exception classes relevant to forward-model selection.  The
constructor `unsupportedModelError` stands for the class
`UnsupportedModelError` named by the spec; grepping the source shows no
such class is defined or raised anywhere in the repository. -/
inductive PyExc where
  | valueError : PyExc
  | keyError : PyExc
  | notImplementedError : PyExc
  | unsupportedModelError : PyExc
deriving DecidableEq

/-- The keys of `model_dict` (models/__init__.py lines 10-15). -/
def modelNames : List String := ["mie", "mie-avg", "projection", "rytov", "rytov-sc"]

/-- The registry lookup `model_dict[model]` (models/__init__.py line 77,
also interp.py line 54): a plain dictionary access, so an unknown name
raises `KeyError`. -/
def modelDictLookup (model : String) : Except PyExc Unit :=
  if model ∈ modelNames then .ok () else .error .keyError

/-- Model-selection skeleton of `qpsphere.cnvnc.analyze`
(cnvnc.py lines 65-113): `method="edge"` with a model other than
`"projection"` raises `ValueError` (line 67); `method="image"` reaches
the registry lookup via `match_phase` → `SpherePhaseInterpolator`;
any other method raises `NotImplementedError` (line 113). -/
def analyzeModelCheck (method model : String) : Except PyExc Unit :=
  if method = "edge" then
    if model ≠ "projection" then .error .valueError else .ok ()
  else if method = "image" then
    modelDictLookup model
  else .error .notImplementedError

/-- Correction parameters of `RSC_PARAMS[42]`
(mod_rytov_sc.py lines 7-12). -/
structure RSCParams where
  na : ℝ
  nb : ℝ
  ra : ℝ
  rb : ℝ
  rc : ℝ

/-- The parameter set for `radius_sampling = 42`. -/
noncomputable def RSC_PARAMS_42 : RSCParams :=
  ⟨1936 / 1000, -12 / 1000, -2431 / 1000, -753 / 1000, 1001 / 1000⟩

/-- Function `get_params` (mod_rytov_sc.py lines 124-129): only sampling 42 is
available; any other value raises `ValueError` (modelled as `none`). -/
noncomputable def get_params (radius_sampling : ℕ) : Option RSCParams :=
  if radius_sampling = 42 then some RSC_PARAMS_42 else none

/-- Function `correct_rytov_output` (mod_rytov_sc.py lines 69-121): the
systematic Rytov correction of fitted radius and index, with
`x = sphere_index / medium_index - 1`. -/
noncomputable def correct_rytov_output (radius sphere_index medium_index : ℝ)
    (radius_sampling : ℕ) : Option (ℝ × ℝ) :=
  (get_params radius_sampling).map fun P =>
    let x := sphere_index / medium_index - 1
    (radius * (P.ra * x ^ 2 + P.rb * x + P.rc),
      sphere_index + medium_index * (P.na * x ^ 2 + P.nb * x))

/-- Function `correct_rytov_sc_input` (mod_rytov_sc.py lines 15-66): the inverse
correction, taking the positive-sign solution of the quadratic for the
refractive index. -/
noncomputable def correct_rytov_sc_input (radius_sc sphere_index_sc medium_index : ℝ)
    (radius_sampling : ℕ) : Option (ℝ × ℝ) :=
  (get_params radius_sampling).map fun P =>
    let prefac := medium_index / (2 * P.na)
    let sm := 2 * P.na - P.nb - 1
    let rt := P.nb ^ 2 - 4 * P.na + 2 * P.nb + 1 +
      4 / medium_index * P.na * sphere_index_sc
    let sphere_index := prefac * (sm + Real.sqrt rt)
    let x := sphere_index / medium_index - 1
    (radius_sc / (P.ra * x ^ 2 + P.rb * x + P.rc), sphere_index)

/-- The hemispherical height profile of `average_sphere`
(edgefit.py lines 104-107): `h = 2*sqrt(root * (root > 0))` with
`root = radius² - |p - center|²` in pixel coordinates. -/
noncomputable def heightProfile (center : ℝ × ℝ) (radius : ℝ) (p : Pixel) : ℝ :=
  let root := radius ^ 2 -
    (((p.1 : ℝ) - center.1) ^ 2 + ((p.2 : ℝ) - center.2) ^ 2)
  2 * Real.sqrt (if 0 < root then root else 0)

/-- The pixel grid of an `sx × sy` image as a finite set. -/
def pixGrid (sx sy : ℕ) : Finset Pixel := Finset.range sx ×ˢ Finset.range sy

open scoped Classical in
/-- Function `average_sphere` (edgefit.py lines 73-123): the phase density
`rho = image / h` on the pixels where `h ≠ 0`, then either the
height-weighted average `np.sum(rho*h)/np.sum(h)` or the simple average
`np.sum(rho)/np.sum(hbin)` (the denominator is the number of pixels with
nonzero height, summed as a boolean array). -/
noncomputable def average_sphere (sx sy : ℕ) (image : Pixel → ℝ)
    (center : ℝ × ℝ) (radius : ℝ) (weighted : Bool) : ℝ :=
  let h := heightProfile center radius
  let rho : Pixel → ℝ := fun p => if h p ≠ 0 then image p / h p else 0
  if weighted then
    (∑ p ∈ pixGrid sx sy, rho p * h p) / (∑ p ∈ pixGrid sx sy, h p)
  else
    (∑ p ∈ pixGrid sx sy, rho p) /
      (∑ p ∈ pixGrid sx sy, if h p ≠ 0 then (1 : ℝ) else 0)

lemma getBorderPhase_state (model : ForwardModel) (s : SPIState) (i j : Fin 3)
    (img : Image) (s' : SPIState)
    (h : getBorderPhase model s i j = some (img, s')) :
    s'.r = s.r ∧ s'.n = s.n ∧ s'.phaOff = s.phaOff ∧ s'.posx = s.posx ∧
      s'.posy = s.posy ∧ s'.dn = s.dn ∧ s'.dr = s.dr := by
  simp only [getBorderPhase] at h
  split at h
  · cases hb : s.borderPha (i, j) with
    | none => rw [hb] at h; simp at h
    | some pha =>
      rw [hb] at h
      simp only [Option.map_some', Option.some.injEq, Prod.mk.injEq] at h
      obtain ⟨-, h2⟩ := h
      subst h2
      exact ⟨rfl, rfl, rfl, rfl, rfl, rfl, rfl⟩
  · simp only [Option.some.injEq, Prod.mk.injEq] at h
    obtain ⟨-, h2⟩ := h
    subst h2
    exact ⟨rfl, rfl, rfl, rfl, rfl, rfl, rfl⟩

lemma get_phase_state (model : ForwardModel) (resample : Resampler) (s : SPIState)
    (a b : Option ℚ) (dox doy : ℚ) (img : NFImage) (s' : SPIState)
    (h : get_phase model resample s a b dox doy = some (img, s')) :
    s'.r = s.r ∧ s'.n = s.n ∧ s'.phaOff = s.phaOff ∧ s'.posx = s.posx ∧
      s'.posy = s.posy ∧ s'.dn = s.dn ∧ s'.dr = s.dr := by
  unfold get_phase at h
  dsimp only at h
  repeat' split at h
  all_goals first
    | exact Option.noConfusion h
    | (rw [Option.bind_eq_some] at h
       obtain ⟨ls, h1, h⟩ := h
       dsimp only at h
       rw [Option.bind_eq_some] at h
       obtain ⟨rs, h2, h⟩ := h
       simp only [Option.some.injEq, Prod.mk.injEq] at h
       obtain ⟨-, h3⟩ := h
       subst h3
       have k1 := getBorderPhase_state model s 1 1 ls.1 ls.2 h1
       have k2 := getBorderPhase_state model ls.2 _ _ rs.1 rs.2 h2
       exact ⟨k2.1.trans k1.1, k2.2.1.trans k1.2.1, k2.2.2.1.trans k1.2.2.1,
         k2.2.2.2.1.trans k1.2.2.2.1, k2.2.2.2.2.1.trans k1.2.2.2.2.1,
         k2.2.2.2.2.2.1.trans k1.2.2.2.2.2.1,
         k2.2.2.2.2.2.2.trans k1.2.2.2.2.2.2⟩)

/-- A forward model for concrete instantiations: the image is constant,
equal to the x-center the model was invoked at (so its output depends on
the center offsets). -/
def constModelX : ForwardModel := fun _ _ cx _ => fun _ => cx

/-- The identity resampler (a lateral shift that changes nothing), for
concrete instantiations. -/
def idResample : Resampler := fun img _ _ => img

/-- A freshly constructed interpolator state: `n0 = 4`, `r0 = 2`, medium
index `4/3`, center `(10, 10)`, zero phase offset, `nrel = 1/10`,
`rrel = 1/20` (so `dn = 4/15`, `dr = 1/10`). -/
def spiC9 : SPIState := SPIState.init 4 2 (4 / 3) 10 10 0 (1 / 10) (1 / 20)

/-- The value at pixel `(0,0)` returned by `get_border_phase` for the
center slot after first caching it at center `(10, 10)` and then shifting
`posx_offset` by `-1` (exactly what the optimizer's third step does each
iteration). -/
def c9SecondLookup : Option ℚ :=
  (getBorderPhase constModelX spiC9 1 1).bind fun ls =>
    (getBorderPhase constModelX { ls.2 with posx := ls.2.posx - 1 } 1 1).map
      fun rs => rs.1 (0, 0)

/-- C9: the border-phase cache's validity test compares only the stored
`(n, r)` keys of a slot with the current evaluation point and ignores the
center offsets.  After the optimizer shifts the center offsets while
`(n, r)` is unchanged, `get_border_phase` still returns the cached phase
computed with the old center `(10, 10)` (value `10` under `constModelX`),
although re-invoking the forward model at the current center `(9, 10)`
would give `9`. -/
theorem border_cache_ignores_center_offsets :
    c9SecondLookup = some 10 ∧
      constModelX 4 2 (10 - 1) 10 (0, 0) = 9 ∧ (10 : ℚ) ≠ 9 := by
  refine ⟨by with_unfolding_all rfl, by norm_num [constModelX], by norm_num⟩

/-- C10: the interpolation division in `get_phase` is unguarded against a
zero half-window.  An interpolator constructed with
`sphere_index = medium_index` has `dn = |(n - nmed) * nrel| = 0`, and a
`get_phase` call that does not vary the radius then divides `0` by
`dmax = 0`, returning an all-`nan` image rather than failing fast or
returning the center border phase. -/
theorem get_phase_nan_on_zero_dn :
    (∀ nmed r0 cx cy pha0 nrel rrel : ℚ,
      (SPIState.init nmed r0 nmed cx cy pha0 nrel rrel).dn = 0) ∧
    (∀ (model : ForwardModel) (resample : Resampler) (s : SPIState)
        (left righ : Image) (s1 s2 : SPIState),
      s.dn = 0 → 0 ≤ s.dr →
      getBorderPhase model s 1 1 = some (left, s1) →
      getBorderPhase model s1 2 1 = some (righ, s2) →
      get_phase model resample s none none 0 0 = some ((fun _ => NF.nan), s2)) := by
  constructor
  · intro nmed r0 cx cy pha0 nrel rrel
    simp [SPIState.init]
  · intro model resample s left righ s1 s2 hdn hdr hb1 hb2
    simp [get_phase, hb1, hb2, hdn, hdr, interpImage, nfDiv, nfAddQ, nfAdd, funext_iff]

lemma get_phase_interp_n (model : ForwardModel) (resample : Resampler)
    (s : SPIState) (nintp : ℚ) (left righ : Image) (s1 s2 : SPIState)
    (hdn : 0 < s.dn) (hdr : 0 ≤ s.dr)
    (hlo : s.n - s.dn ≤ nintp) (hhi : nintp ≤ s.n + s.dn)
    (hb1 : getBorderPhase model s 1 1 = some (left, s1))
    (hb2 : getBorderPhase model s1 (if nintp - s.n < 0 then 0 else 2) 1 = some (righ, s2)) :
    get_phase model resample s (some nintp) none 0 0 =
      some ((fun p => NF.num
        (left p + (righ p - left p) * |nintp - s.n| / s.dn + s.phaOff)), s2) := by
  have hdn' : s.dn ≠ 0 := ne_of_gt hdn
  have hr1 : s.r - s.dr ≤ s.r := by linarith
  have hr2 : s.r ≤ s.r + s.dr := by linarith
  simp only [sub_neg] at hb2
  simp [get_phase, hb1, hb2, hr1, hr2, hlo, hhi, apply_ite (f := Prod.fst),
    apply_ite (f := Prod.snd), interpImage, nfAddQ, nfAdd, nfDiv, hdn', funext_iff,
    mul_div_assoc]

lemma get_phase_interp_r (model : ForwardModel) (resample : Resampler)
    (s : SPIState) (rintp : ℚ) (left righ : Image) (s1 s2 : SPIState)
    (hdr : 0 < s.dr) (hdn : 0 ≤ s.dn) (hne : rintp ≠ s.r)
    (hlo : s.r - s.dr ≤ rintp) (hhi : rintp ≤ s.r + s.dr)
    (hb1 : getBorderPhase model s 1 1 = some (left, s1))
    (hb2 : getBorderPhase model s1 1 (if rintp - s.r < 0 then 0 else 2) = some (righ, s2)) :
    get_phase model resample s none (some rintp) 0 0 =
      some ((fun p => NF.num
        (left p + (righ p - left p) * |rintp - s.r| / s.dr + s.phaOff)), s2) := by
  have hdr' : s.dr ≠ 0 := ne_of_gt hdr
  have hn1 : s.n - s.dn ≤ s.n := by linarith
  have hn2 : s.n ≤ s.n + s.dn := by linarith
  simp only [sub_neg] at hb2
  simp [get_phase, hb1, hb2, hn1, hn2, hlo, hhi, hne, apply_ite (f := Prod.fst),
    apply_ite (f := Prod.snd), interpImage, nfAddQ, nfAdd, nfDiv, hdr', funext_iff,
    mul_div_assoc]

/-- C5: with zero delta offsets and a query that varies only one of the
two parameters inside its interpolation range, `get_phase` returns
exactly `B00 + (Bs - B00) * |query - current| / halfwindow + pha_offset`,
where `B00` is the border phase of the center slot and `Bs` the border
phase of the slot on the side of the query (index `0` below the current
value, index `2` above), both as returned by `get_border_phase`.  The
first conjunct varies the refractive index (`dn > 0`), the second the
radius (`dr > 0`). -/
theorem get_phase_linear_interpolation :
    (∀ (model : ForwardModel) (resample : Resampler) (s : SPIState) (nintp : ℚ)
        (left righ : Image) (s1 s2 : SPIState),
      0 < s.dn → 0 ≤ s.dr →
      s.n - s.dn ≤ nintp → nintp ≤ s.n + s.dn →
      getBorderPhase model s 1 1 = some (left, s1) →
      getBorderPhase model s1 (if nintp - s.n < 0 then 0 else 2) 1 = some (righ, s2) →
      get_phase model resample s (some nintp) none 0 0 =
        some ((fun p => NF.num
          (left p + (righ p - left p) * |nintp - s.n| / s.dn + s.phaOff)), s2)) ∧
    (∀ (model : ForwardModel) (resample : Resampler) (s : SPIState) (rintp : ℚ)
        (left righ : Image) (s1 s2 : SPIState),
      0 < s.dr → 0 ≤ s.dn → rintp ≠ s.r →
      s.r - s.dr ≤ rintp → rintp ≤ s.r + s.dr →
      getBorderPhase model s 1 1 = some (left, s1) →
      getBorderPhase model s1 1 (if rintp - s.r < 0 then 0 else 2) = some (righ, s2) →
      get_phase model resample s none (some rintp) 0 0 =
        some ((fun p => NF.num
          (left p + (righ p - left p) * |rintp - s.r| / s.dr + s.phaOff)), s2)) := by
  exact ⟨fun model resample s nintp left righ s1 s2 hdn hdr hlo hhi hb1 hb2 =>
      get_phase_interp_n model resample s nintp left righ s1 s2 hdn hdr hlo hhi hb1 hb2,
    fun model resample s rintp left righ s1 s2 hdr hdn hne hlo hhi hb1 hb2 =>
      get_phase_interp_r model resample s rintp left righ s1 s2 hdr hdn hne hlo hhi hb1 hb2⟩

/-- A degenerate interpolator state built with
`sphere_index = medium_index = 4/3` (so `dn = 0`), radius 2, center
`(10, 10)`, phase offset `1/2`, `nrel = 1/10`, `rrel = 1/20`. -/
def spiC10 : SPIState := SPIState.init (4 / 3) 2 (4 / 3) 10 10 (1 / 2) (1 / 10) (1 / 20)

/-- The image `constModelX` produces at center `(10, 10)`. -/
def c10Pha : Image := fun _ => 10

/-- State `spiC10` after caching the center border slot. -/
def c10S1 : SPIState :=
  { spiC10 with
    nBorder := Function.update spiC10.nBorder (1, 1) (4 / 3)
    rBorder := Function.update spiC10.rBorder (1, 1) 2
    borderPha := Function.update spiC10.borderPha (1, 1) (some c10Pha) }

/-- State `c10S1` after caching the upper refractive-index slot. -/
def c10S2 : SPIState :=
  { c10S1 with
    nBorder := Function.update c10S1.nBorder (2, 1) (4 / 3)
    rBorder := Function.update c10S1.rBorder (2, 1) 2
    borderPha := Function.update c10S1.borderPha (2, 1) (some c10Pha) }

/-- Witness for C10 at a concrete input. -/
theorem get_phase_nan_on_zero_dn_witness :
    get_phase constModelX idResample spiC10 none none 0 0 =
      some ((fun _ => NF.nan), c10S2) := by
  refine get_phase_nan_on_zero_dn.2 constModelX idResample spiC10 c10Pha c10Pha
    c10S1 c10S2 ?_ ?_ ?_ ?_
  · with_unfolding_all rfl
  · rw [show spiC10.dr = 1 / 10 from by with_unfolding_all rfl]; norm_num
  · with_unfolding_all rfl
  · with_unfolding_all rfl

/-- A regular interpolator state: `n0 = 4`, `r0 = 2`, medium `4/3`,
center `(10, 10)`, phase offset `1/2`, `nrel = 1/10`, `rrel = 1/20`
(so `dn = 4/15 > 0`, `dr = 1/10 > 0`). -/
def spiC5 : SPIState := SPIState.init 4 2 (4 / 3) 10 10 (1 / 2) (1 / 10) (1 / 20)

/-- The image `constModelX` produces at center `(10, 10)`. -/
def c5Pha : Image := fun _ => 10

/-- State `spiC5` after caching the center border slot. -/
def c5S1 : SPIState :=
  { spiC5 with
    nBorder := Function.update spiC5.nBorder (1, 1) 4
    rBorder := Function.update spiC5.rBorder (1, 1) 2
    borderPha := Function.update spiC5.borderPha (1, 1) (some c5Pha) }

/-- State `c5S1` after caching the upper refractive-index slot. -/
def c5S2 : SPIState :=
  { c5S1 with
    nBorder := Function.update c5S1.nBorder (2, 1) (64 / 15)
    rBorder := Function.update c5S1.rBorder (2, 1) 2
    borderPha := Function.update c5S1.borderPha (2, 1) (some c5Pha) }

/-- Witness for C5 at a concrete input (refractive-index query
`nintp = 4 + 1/15`, inside the range `[4 - 4/15, 4 + 4/15]`). -/
theorem get_phase_linear_interpolation_witness :
    get_phase constModelX idResample spiC5 (some (4 + 1 / 15)) none 0 0 =
      some ((fun p => NF.num (c5Pha p + (c5Pha p - c5Pha p) *
        |(4 + 1 / 15 : ℚ) - spiC5.n| / spiC5.dn + spiC5.phaOff)), c5S2) := by
  have hdn5 : spiC5.dn = 4 / 15 := by with_unfolding_all rfl
  have hn5 : spiC5.n = 4 := rfl
  refine get_phase_linear_interpolation.1 constModelX idResample spiC5 (4 + 1 / 15)
    c5Pha c5Pha c5S1 c5S2 ?_ ?_ ?_ ?_ ?_ ?_
  · rw [hdn5]; norm_num
  · rw [show spiC5.dr = 1 / 10 from by with_unfolding_all rfl]; norm_num
  · rw [hdn5, hn5]; norm_num
  · rw [hdn5, hn5]; norm_num
  · with_unfolding_all rfl
  · with_unfolding_all rfl

lemma probeFold_none (model : ForwardModel) (resample : Resampler) (sx sy : ℕ)
    (phase : Pixel → ℚ) (l : List (ℚ × ℚ)) :
    l.foldl (probeStep model resample sx sy phase) none = none := by
  induction l with
  | nil => rfl
  | cons off rest ih => rw [List.foldl_cons]; exact ih

lemma probeFold_state (model : ForwardModel) (resample : Resampler) (sx sy : ℕ)
    (phase : Pixel → ℚ) :
    ∀ (l : List (ℚ × ℚ)) (es : List NF) (st : SPIState) (es' : List NF) (st' : SPIState),
      l.foldl (probeStep model resample sx sy phase) (some (es, st)) = some (es', st') →
      st'.r = st.r ∧ st'.n = st.n ∧ st'.phaOff = st.phaOff ∧ st'.posx = st.posx ∧
        st'.posy = st.posy ∧ st'.dn = st.dn ∧ st'.dr = st.dr := by
  intro l
  induction l with
  | nil =>
    intro es st es' st' h
    simp only [List.foldl_nil, Option.some.injEq, Prod.mk.injEq] at h
    obtain ⟨-, h2⟩ := h
    subst h2
    exact ⟨rfl, rfl, rfl, rfl, rfl, rfl, rfl⟩
  | cons off rest ih =>
    intro es st es' st' h
    rw [List.foldl_cons] at h
    rcases hg : get_phase model resample st none none off.1 off.2 with _ | pr
    · rw [show probeStep model resample sx sy phase (some (es, st)) off = none from by
        simp [probeStep, hg]] at h
      rw [probeFold_none] at h
      exact absurd h (by simp)
    · rw [show probeStep model resample sx sy phase (some (es, st)) off =
          some (es ++ [sqPhaseDiff sx sy phase pr.1], pr.2) from by
        simp [probeStep, hg]] at h
      have k1 := get_phase_state model resample st none none off.1 off.2 pr.1 pr.2 hg
      have k2 := ih _ _ _ _ h
      exact ⟨k2.1.trans k1.1, k2.2.1.trans k1.2.1, k2.2.2.1.trans k1.2.2.1,
        k2.2.2.2.1.trans k1.2.2.2.1, k2.2.2.2.2.1.trans k1.2.2.2.2.1,
        k2.2.2.2.2.2.1.trans k1.2.2.2.2.2.1,
        k2.2.2.2.2.2.2.trans k1.2.2.2.2.2.2⟩

lemma centerSearch_state (model : ForwardModel) (resample : Resampler) (sx sy : ℕ)
    (phase : Pixel → ℚ) (dc : ℚ) (s : SPIState) (dx dy : ℚ) (s' : SPIState)
    (h : centerSearch model resample sx sy phase dc s = some (dx, dy, s')) :
    s'.posx = s.posx - dx ∧ s'.posy = s.posy - dy ∧ s'.r = s.r ∧ s'.n = s.n ∧
      s'.phaOff = s.phaOff ∧ s'.dn = s.dn ∧ s'.dr = s.dr := by
  unfold centerSearch at h
  dsimp only at h
  split at h
  · exact absurd h (by simp)
  · rename_i es_st heq
    simp only [Option.some.injEq, Prod.mk.injEq] at h
    obtain ⟨h1, h2, h3⟩ := h
    subst h3
    have k := probeFold_state model resample sx sy phase _ _ _ _ _ heq
    subst h1
    subst h2
    exact ⟨by rw [k.2.2.2.1], by rw [k.2.2.2.2.1], k.1, k.2.1, k.2.2.1,
      k.2.2.2.2.2.1, k.2.2.2.2.2.2⟩

/-- C6: the lateral offset found by the 13×13 grid search is accumulated
into the running center offsets — the new `posx_offset` equals the old
one minus `deltax` (and similarly for y) — rather than replacing them. -/
theorem center_offsets_accumulate (model : ForwardModel) (resample : Resampler)
    (sx sy : ℕ) (phase : Pixel → ℚ) (dc : ℚ) (s : SPIState) (dx dy : ℚ) (s' : SPIState)
    (h : centerSearch model resample sx sy phase dc s = some (dx, dy, s')) :
    s'.posx = s.posx - dx ∧ s'.posy = s.posy - dy :=
  ⟨(centerSearch_state model resample sx sy phase dc s dx dy s' h).1,
   (centerSearch_state model resample sx sy phase dc s dx dy s' h).2.1⟩

set_option maxRecDepth 100000 in
/-- Witness for C6: a full 13×13 grid search on a 1×1 image (interval
radius `dc = 6`, so the trial offsets are the integers `-6..6`). -/
theorem center_offsets_accumulate_witness :
    ∃ dx dy s', centerSearch constModelX idResample 1 1 (fun _ => 0) 6 spiC5 =
        some (dx, dy, s') ∧
      s'.posx = spiC5.posx - dx ∧ s'.posy = spiC5.posy - dy := by
  obtain ⟨dx, dy, s', h⟩ : ∃ dx dy s',
      centerSearch constModelX idResample 1 1 (fun _ => 0) 6 spiC5 = some (dx, dy, s') :=
    ⟨-6, -6, _, by with_unfolding_all rfl⟩
  exact ⟨dx, dy, s', h, center_offsets_accumulate _ _ _ _ _ _ _ _ _ _ h⟩

lemma phaOffsetStep_state (model : ForwardModel) (resample : Resampler) (sx sy : ℕ)
    (phase : Pixel → ℚ) (s s' : SPIState)
    (h : phaOffsetStep model resample sx sy phase s = some s') :
    s'.r = s.r ∧ s'.n = s.n ∧ s'.posx = s.posx ∧ s'.posy = s.posy ∧
      s'.dn = s.dn ∧ s'.dr = s.dr := by
  unfold phaOffsetStep at h
  rw [Option.map_eq_some'] at h
  obtain ⟨x, hx, h2⟩ := h
  subst h2
  have k := get_phase_state model resample s none none 0 0 x.1 x.2 hx
  exact ⟨k.1, k.2.1, k.2.2.2.1, k.2.2.2.2.1, k.2.2.2.2.2.1, k.2.2.2.2.2.2⟩

lemma updateAccuracies_mono (s : SPIState) (idn idr : ℕ) :
    ((updateAccuracies s idn idr).dn = s.dn ∨
      (updateAccuracies s idn idr).dn = s.dn / 2) ∧
    ((updateAccuracies s idn idr).dr = s.dr ∨
      (updateAccuracies s idn idr).dr = s.dr / 2) ∧
    (0 ≤ s.dn → 0 ≤ (updateAccuracies s idn idr).dn ∧
      (updateAccuracies s idn idr).dn ≤ s.dn) ∧
    (0 ≤ s.dr → 0 ≤ (updateAccuracies s idn idr).dr ∧
      (updateAccuracies s idn idr).dr ≤ s.dr) := by
  unfold updateAccuracies
  dsimp only
  constructor
  · split <;> split <;> simp
  constructor
  · split <;> split <;> simp
  constructor
  · intro h
    constructor
    · split <;> split <;> (try simp) <;> linarith
    · split <;> split <;> (try simp) <;> linarith
  · intro h
    constructor
    · split <;> split <;> (try simp) <;> linarith
    · split <;> split <;> (try simp) <;> linarith

lemma runLoop_halfwindows (body : ℕ → SPIState → IterOut) (minIter maxIter : ℕ)
    (stopDc stopDr stopDn : ℚ)
    (hbody : ∀ (k : ℕ) (st : SPIState),
      (0 ≤ st.dn → 0 ≤ (body k st).state.dn ∧ (body k st).state.dn ≤ st.dn) ∧
      (0 ≤ st.dr → 0 ≤ (body k st).state.dr ∧ (body k st).state.dr ≤ st.dr)) :
    ∀ (fuel ii : ℕ) (s : SPIState) (dc : ℚ) (recorder : List (ℚ × ℚ))
      (res : ℤ) (sfin : SPIState),
      runLoop body minIter maxIter stopDc stopDr stopDn fuel ii s dc recorder =
        some (res, sfin) →
      0 ≤ s.dn → 0 ≤ s.dr →
      0 ≤ sfin.dn ∧ sfin.dn ≤ s.dn ∧ 0 ≤ sfin.dr ∧ sfin.dr ≤ s.dr := by
  intro fuel
  induction fuel with
  | zero =>
    intro ii s dc recorder res sfin h
    exact absurd h (by simp [runLoop])
  | succ n ih =>
    intro ii s dc recorder res sfin h hdn hdr
    simp only [runLoop] at h
    have hb := hbody (ii + 1) s
    have hd1 := hb.1 hdn
    have hd2 := hb.2 hdr
    have hu1 := (updateAccuracies_mono (body (ii + 1) s).state (body (ii + 1) s).idn
      (body (ii + 1) s).idr).2.2.1 hd1.1
    have hu2 := (updateAccuracies_mono (body (ii + 1) s).state (body (ii + 1) s).idn
      (body (ii + 1) s).idr).2.2.2 hd2.1
    repeat' split at h
    all_goals first
      | (simp only [Option.some.injEq, Prod.mk.injEq] at h
         obtain ⟨-, h2⟩ := h
         subst h2
         exact ⟨hu1.1, le_trans hu1.2 hd1.2, hu2.1, le_trans hu2.2 hd2.2⟩)
      | (have hrec := ih _ _ _ _ _ _ h hu1.1 hu2.1
         exact ⟨hrec.1, le_trans hrec.2.1 (le_trans hu1.2 hd1.2), hrec.2.2.1,
           le_trans hrec.2.2.2 (le_trans hu2.2 hd2.2)⟩)

/-- C4: the half-window values `dn` and `dr` are non-negative and
monotonically non-increasing throughout a run of `match_phase`: they are
non-negative at construction (`dn` by the absolute value, `dr` provided
radius and `rrel` are non-negative), the per-iteration accuracy update of
alg.py lines 225-235 either leaves each unchanged or halves it — hence
never increases it and preserves non-negativity — and no other operation
of the optimizer or interpolator (`get_border_phase`, `get_phase`, the
lateral grid search, the phase-offset step) ever writes them. -/
theorem search_halfwindows_monotone :
    (∀ n0 r0 nmed cx cy pha0 nrel rrel : ℚ,
      0 ≤ (SPIState.init n0 r0 nmed cx cy pha0 nrel rrel).dn ∧
      (0 ≤ r0 → 0 ≤ rrel → 0 ≤ (SPIState.init n0 r0 nmed cx cy pha0 nrel rrel).dr)) ∧
    (∀ (s : SPIState) (idn idr : ℕ),
      ((updateAccuracies s idn idr).dn = s.dn ∨
        (updateAccuracies s idn idr).dn = s.dn / 2) ∧
      ((updateAccuracies s idn idr).dr = s.dr ∨
        (updateAccuracies s idn idr).dr = s.dr / 2) ∧
      (0 ≤ s.dn → 0 ≤ (updateAccuracies s idn idr).dn ∧
        (updateAccuracies s idn idr).dn ≤ s.dn) ∧
      (0 ≤ s.dr → 0 ≤ (updateAccuracies s idn idr).dr ∧
        (updateAccuracies s idn idr).dr ≤ s.dr)) ∧
    (∀ (model : ForwardModel) (s : SPIState) (i j : Fin 3) (img : Image) (s' : SPIState),
      getBorderPhase model s i j = some (img, s') → s'.dn = s.dn ∧ s'.dr = s.dr) ∧
    (∀ (model : ForwardModel) (resample : Resampler) (s : SPIState) (a b : Option ℚ)
        (dox doy : ℚ) (img : NFImage) (s' : SPIState),
      get_phase model resample s a b dox doy = some (img, s') →
      s'.dn = s.dn ∧ s'.dr = s.dr) ∧
    (∀ (model : ForwardModel) (resample : Resampler) (sx sy : ℕ) (phase : Pixel → ℚ)
        (dc : ℚ) (s : SPIState) (dx dy : ℚ) (s' : SPIState),
      centerSearch model resample sx sy phase dc s = some (dx, dy, s') →
      s'.dn = s.dn ∧ s'.dr = s.dr) ∧
    (∀ (model : ForwardModel) (resample : Resampler) (sx sy : ℕ) (phase : Pixel → ℚ)
        (s s' : SPIState),
      phaOffsetStep model resample sx sy phase s = some s' →
      s'.dn = s.dn ∧ s'.dr = s.dr) ∧
    (∀ (body : ℕ → SPIState → IterOut) (minIter maxIter : ℕ)
        (stopDc stopDr stopDn : ℚ) (fuel ii : ℕ) (s : SPIState) (dc : ℚ)
        (recorder : List (ℚ × ℚ)) (res : ℤ) (sfin : SPIState),
      (∀ (k : ℕ) (st : SPIState),
        (0 ≤ st.dn → 0 ≤ (body k st).state.dn ∧ (body k st).state.dn ≤ st.dn) ∧
        (0 ≤ st.dr → 0 ≤ (body k st).state.dr ∧ (body k st).state.dr ≤ st.dr)) →
      runLoop body minIter maxIter stopDc stopDr stopDn fuel ii s dc recorder =
        some (res, sfin) →
      0 ≤ s.dn → 0 ≤ s.dr →
      0 ≤ sfin.dn ∧ sfin.dn ≤ s.dn ∧ 0 ≤ sfin.dr ∧ sfin.dr ≤ s.dr) := by
  refine ⟨?_, ?_, ?_, ?_, ?_, ?_, ?_⟩
  · intro n0 r0 nmed cx cy pha0 nrel rrel
    exact ⟨abs_nonneg _, fun h1 h2 => mul_nonneg h1 h2⟩
  · intro s idn idr
    exact updateAccuracies_mono s idn idr
  · intro model s i j img s' h
    have k := getBorderPhase_state model s i j img s' h
    exact ⟨k.2.2.2.2.2.1, k.2.2.2.2.2.2⟩
  · intro model resample s a b dox doy img s' h
    have k := get_phase_state model resample s a b dox doy img s' h
    exact ⟨k.2.2.2.2.2.1, k.2.2.2.2.2.2⟩
  · intro model resample sx sy phase dc s dx dy s' h
    have k := centerSearch_state model resample sx sy phase dc s dx dy s' h
    exact ⟨k.2.2.2.2.2.1, k.2.2.2.2.2.2⟩
  · intro model resample sx sy phase s s' h
    have k := phaOffsetStep_state model resample sx sy phase s s' h
    exact ⟨k.2.2.2.2.1, k.2.2.2.2.2⟩
  · intro body minIter maxIter stopDc stopDr stopDn fuel ii s dc recorder res sfin
      hbody h hdn hdr
    exact runLoop_halfwindows body minIter maxIter stopDc stopDr stopDn hbody
      fuel ii s dc recorder res sfin h hdn hdr

/-- A non-converging iteration body: each iteration moves both the radius
and the refractive index by a full unit (far above the stopping
thresholds) and reports minimiser indices `0` and no lateral movement. -/
def divergeBody : ℕ → SPIState → IterOut :=
  fun _ s => ⟨{ s with n := s.n + 1, r := s.r + 1 }, 0, 0, 0, 0⟩

set_option maxRecDepth 100000 in
/-- Witness for C4 at concrete inputs: the state constructed by
`SPIState.init`, one accuracy update with a central minimiser index, a
border-cache fill, a `get_phase` call, a full lateral grid search and one
phase-offset step all keep `dn`/`dr` non-negative and never increase
them. -/
theorem search_halfwindows_monotone_witness :
    (0 ≤ (SPIState.init 4 2 (4 / 3) 10 10 0 (1 / 10) (1 / 20)).dn ∧
      0 ≤ (SPIState.init 4 2 (4 / 3) 10 10 0 (1 / 10) (1 / 20)).dr) ∧
    (0 ≤ (updateAccuracies spiC5 23 0).dn ∧ (updateAccuracies spiC5 23 0).dn ≤ spiC5.dn) ∧
    (c10S1.dn = spiC10.dn ∧ c10S1.dr = spiC10.dr) ∧
    (c10S2.dn = spiC10.dn ∧ c10S2.dr = spiC10.dr) ∧
    (∃ dx dy s', centerSearch constModelX idResample 1 1 (fun _ => 0) 6 spiC5 =
        some (dx, dy, s') ∧ s'.dn = spiC5.dn ∧ s'.dr = spiC5.dr) ∧
    (∃ s', phaOffsetStep constModelX idResample 1 1 (fun _ => 0) spiC5 = some s' ∧
      s'.dn = spiC5.dn ∧ s'.dr = spiC5.dr) ∧
    (∃ res sfin, runLoop divergeBody 1 2 1 (1 / 1000) (5 / 10000) 10 0 spiC5 6 [] =
        some (res, sfin) ∧
      0 ≤ sfin.dn ∧ sfin.dn ≤ spiC5.dn ∧ 0 ≤ sfin.dr ∧ sfin.dr ≤ spiC5.dr) := by
  have h := search_halfwindows_monotone
  refine ⟨⟨(h.1 4 2 (4 / 3) 10 10 0 (1 / 10) (1 / 20)).1,
      (h.1 4 2 (4 / 3) 10 10 0 (1 / 10) (1 / 20)).2 (by norm_num) (by norm_num)⟩,
    ?_, ?_, ?_, ?_, ?_, ?_⟩
  · exact (h.2.1 spiC5 23 0).2.2.1
      (by rw [show spiC5.dn = 4 / 15 from by with_unfolding_all rfl]; norm_num)
  · exact h.2.2.1 constModelX spiC10 1 1 c10Pha c10S1 (by with_unfolding_all rfl)
  · exact h.2.2.2.1 constModelX idResample spiC10 none none 0 0 (fun _ => NF.nan) c10S2
      (by with_unfolding_all rfl)
  · obtain ⟨dx, dy, s', hcs⟩ : ∃ dx dy s',
        centerSearch constModelX idResample 1 1 (fun _ => 0) 6 spiC5 = some (dx, dy, s') :=
      ⟨-6, -6, _, by with_unfolding_all rfl⟩
    exact ⟨dx, dy, s', hcs,
      h.2.2.2.2.1 constModelX idResample 1 1 (fun _ => 0) 6 spiC5 dx dy s' hcs⟩
  · obtain ⟨s', hps⟩ : ∃ s',
        phaOffsetStep constModelX idResample 1 1 (fun _ => 0) spiC5 = some s' :=
      ⟨_, by with_unfolding_all rfl⟩
    exact ⟨s', hps, h.2.2.2.2.2.1 constModelX idResample 1 1 (fun _ => 0) spiC5 s' hps⟩
  · obtain ⟨res, sfin, hrl⟩ : ∃ res sfin,
        runLoop divergeBody 1 2 1 (1 / 1000) (5 / 10000) 10 0 spiC5 6 [] =
          some (res, sfin) :=
      ⟨-3, _, by with_unfolding_all rfl⟩
    refine ⟨res, sfin, hrl, h.2.2.2.2.2.2 divergeBody 1 2 1 (1 / 1000) (5 / 10000)
      10 0 spiC5 6 [] res sfin ?_ hrl ?_ ?_⟩
    · intro k st
      exact ⟨fun h0 => ⟨h0, le_refl _⟩, fun h0 => ⟨h0, le_refl _⟩⟩
    · rw [show spiC5.dn = 4 / 15 from by with_unfolding_all rfl]
      norm_num
    · rw [show spiC5.dr = 1 / 10 from by with_unfolding_all rfl]
      norm_num

lemma nfSubQ_toRat_none (x : NF) (q : ℚ) (h : x.toRat? = none) :
    (nfSubQ x q).toRat? = none := by
  cases x <;> simp_all [nfSubQ, nfAdd, NF.toRat?]

/-- An interpolator state with a nonzero phase offset `1`
(`n0 = 4`, `r0 = 2`, medium `4/3`, center `(10, 10)`). -/
def spiC2 : SPIState := SPIState.init 4 2 (4 / 3) 10 10 1 (1 / 10) (1 / 20)

set_option maxRecDepth 100000 in
/-- C2 counterexample: on a 6×6 image whose modeled background phase is
constant (so every pixel exceeds 1% of the modeled peak and no pixel
qualifies as background), the phase-offset step does *not* leave the
offset unchanged: the offset was `1` before the step and is `0`
afterwards, because `np.nanmean` of the all-`nan` array is `nan` and the
code then assigns `pha_offset = -0`. -/
theorem pha_offset_reset_counterexample :
    spiC2.phaOff = 1 ∧
      (phaOffsetStep constModelX idResample 6 6 (fun _ => 0) spiC2).map
        SPIState.phaOff = some 0 := by
  exact ⟨rfl, by with_unfolding_all rfl⟩

/-- C2 (amended): when no pixel of the masked background array is finite
— no pixel both has absolute modeled phase within 1% of the modeled peak
and lies in the border margin — the phase-offset step *sets the offset to
zero* (`phai_offset` is treated as `0` and `pha_offset := -0`); the
offset is therefore unchanged only when it was already zero. -/
theorem pha_offset_zero_when_no_background (model : ForwardModel)
    (resample : Resampler) (sx sy : ℕ) (phase : Pixel → ℚ) (s : SPIState)
    (img : NFImage) (s1 s' : SPIState)
    (h1 : get_phase model resample s none none 0 0 = some (img, s1))
    (hmask : ∀ p ∈ pixList sx sy,
      (maskedCab sx sy (fun q => nfSubQ (img q) s.phaOff) p).toRat? = none)
    (h2 : phaOffsetStep model resample sx sy phase s = some s') :
    s'.phaOff = 0 := by
  unfold phaOffsetStep at h2
  rw [h1, Option.map_some'] at h2
  simp only [Option.some.injEq] at h2
  subst h2
  show newPhaOffset sx sy _ phase = 0
  unfold newPhaOffset
  have hv : (pixList sx sy).filterMap
      (fun p => (nfSubQ (maskedCab sx sy (fun q => nfSubQ (img q) s.phaOff) p)
        (phase p)).toRat?) = [] :=
    List.filterMap_eq_nil_iff.mpr fun p hp => nfSubQ_toRat_none _ _ (hmask p hp)
  rw [hv]
  simp

/-- The image returned by the no-argument `get_phase` call on `spiC5`,
as produced by the interpolation formula (it evaluates to the constant
`10 + 0 + 1/2`). -/
def c2ImgF : NFImage := fun p => NF.num
  (c5Pha p + (c5Pha p - c5Pha p) * |spiC5.n - spiC5.n| / spiC5.dn + spiC5.phaOff)

/-- The interpolator state after one phase-offset step on `spiC5` with a
6×6 all-zero target image and constant modeled phase. -/
def c2Out : SPIState :=
  { c5S2 with phaOff :=
      newPhaOffset 6 6 (fun p => nfSubQ (c2ImgF p) spiC5.phaOff) (fun _ => 0) }

set_option maxRecDepth 100000 in
/-- Witness for the amended C2 at a concrete input (6×6 image, constant
modeled phase, prior offset `1/2`). -/
theorem pha_offset_zero_when_no_background_witness :
    phaOffsetStep constModelX idResample 6 6 (fun _ => 0) spiC5 = some c2Out ∧
      c2Out.phaOff = 0 := by
  have hdn5 : spiC5.dn = 4 / 15 := by with_unfolding_all rfl
  have hq : get_phase constModelX idResample spiC5 (some spiC5.n) none 0 0 =
      some (c2ImgF, c5S2) := by
    refine get_phase_interp_n constModelX idResample spiC5 spiC5.n c5Pha c5Pha
      c5S1 c5S2 ?_ ?_ ?_ ?_ ?_ ?_
    · rw [hdn5]; norm_num
    · rw [show spiC5.dr = 1 / 10 from by with_unfolding_all rfl]; norm_num
    · rw [hdn5]; norm_num
    · rw [hdn5]; norm_num
    · with_unfolding_all rfl
    · with_unfolding_all rfl
  have h1f : get_phase constModelX idResample spiC5 none none 0 0 =
      some (c2ImgF, c5S2) := hq
  have h2 : phaOffsetStep constModelX idResample 6 6 (fun _ => 0) spiC5 = some c2Out := by
    unfold phaOffsetStep
    rw [h1f, Option.map_some']
    rfl
  exact ⟨h2, pha_offset_zero_when_no_background constModelX idResample 6 6 (fun _ => 0)
    spiC5 c2ImgF c5S2 c2Out h1f
    (of_decide_eq_true (by with_unfolding_all rfl)) h2⟩

set_option maxRecDepth 100000 in
/-- C1 (code bug): with `min_iter = 1` and `max_iter = 2` on a
non-converging input, the loop of `match_phase` does not stop once the
iteration count reaches `max_iter`: the guard at alg.py line 245 is
`ii > max_iter`, so a third iteration body runs and the returned signed
iteration count is `-3`, not `-2` — contradicting both the spec and the
repository's own test `tests/test_imagefit.py::test_alg_maxiter`, which
asserts `abs(num_iter) == 2`. -/
theorem matchPhase_maxiter_returns_neg3 :
    (∃ s, runLoop divergeBody 1 2 1 (1 / 1000) (5 / 10000) 10 0 spiC5 6 [] =
      some (-3, s)) ∧
    (∀ s, runLoop divergeBody 1 2 1 (1 / 1000) (5 / 10000) 10 0 spiC5 6 [] ≠
      some (-2, s)) := by
  obtain ⟨s, h⟩ : ∃ s,
      runLoop divergeBody 1 2 1 (1 / 1000) (5 / 10000) 10 0 spiC5 6 [] = some (-3, s) :=
    ⟨_, by with_unfolding_all rfl⟩
  refine ⟨⟨s, h⟩, fun s' hc => ?_⟩
  rw [h] at hc
  simp only [Option.some.injEq, Prod.mk.injEq] at hc
  obtain ⟨h1, -⟩ := hc
  norm_num at h1

/-- C3 counterexample: the failures exist but carry different exception
classes than the spec names.  `analyze(method="edge", model="mie")`
raises `ValueError` (cnvnc.py line 67) and an unknown registry name
raises `KeyError` (the plain `model_dict[model]` lookup); neither is an
`UnsupportedModelError`, a class the source never defines or raises. -/
theorem unsupported_model_error_not_raised :
    analyzeModelCheck "edge" "mie" = .error .valueError ∧
      analyzeModelCheck "edge" "mie" ≠ .error .unsupportedModelError ∧
      modelDictLookup "unknown-model" = .error .keyError ∧
      modelDictLookup "unknown-model" ≠ .error .unsupportedModelError := by
  have h1 : analyzeModelCheck "edge" "mie" = .error .valueError := by
    with_unfolding_all rfl
  have h2 : modelDictLookup "unknown-model" = .error .keyError := by
    with_unfolding_all rfl
  refine ⟨h1, ?_, h2, ?_⟩
  · rw [h1]
    intro hc
    injection hc with hx
    exact PyExc.noConfusion hx
  · rw [h2]
    intro hc
    injection hc with hx
    exact PyExc.noConfusion hx

/-- C3 (amended): every call that selects a forward model by name fails
on an unknown name — with `KeyError` from the registry lookup — and
`analyze` with `method="edge"` and any model other than `"projection"`
fails with `ValueError` (not with an `UnsupportedModelError`, which does
not exist in the source). -/
theorem model_selection_errors (m : String) :
    (m ∉ modelNames → modelDictLookup m = .error .keyError) ∧
    (m ≠ "projection" → analyzeModelCheck "edge" m = .error .valueError) := by
  constructor
  · intro hm
    simp [modelDictLookup, hm]
  · intro hm
    simp [analyzeModelCheck, hm]

/-- Witness for the amended C3 at a concrete model name. -/
theorem model_selection_errors_witness :
    modelDictLookup "born" = .error .keyError ∧
      analyzeModelCheck "edge" "born" = .error .valueError :=
  ⟨(model_selection_errors "born").1 (by simp [modelNames]),
   (model_selection_errors "born").2 (by simp)⟩

/-- C7 (amended): for `radius_sampling = 42`, `medium_index > 0` and
`sphere_index ≥ medium_index`, applying `correct_rytov_sc_input` to the
pair returned by `correct_rytov_output` yields back exactly
`(radius, sphere_index)` over the reals, provided the radius-correction
polynomial `ra·x² + rb·x + rc` (with `x = sphere_index/medium_index - 1`)
is nonzero; at its positive root (`x ≈ 0.505`) the corrected radius is
`0` and the radius cannot be recovered. -/
theorem rytov_sc_roundtrip (radius sphere_index medium_index : ℝ)
    (hm : 0 < medium_index) (hn : medium_index ≤ sphere_index)
    (hpoly : RSC_PARAMS_42.ra * (sphere_index / medium_index - 1) ^ 2 +
      RSC_PARAMS_42.rb * (sphere_index / medium_index - 1) + RSC_PARAMS_42.rc ≠ 0) :
    (correct_rytov_output radius sphere_index medium_index 42).bind
      (fun p => correct_rytov_sc_input p.1 p.2 medium_index 42) =
      some (radius, sphere_index) := by
  have hm' : medium_index ≠ 0 := ne_of_gt hm
  set x := sphere_index / medium_index - 1 with hx
  have hx0 : 0 ≤ x := by
    have h1 : 1 ≤ sphere_index / medium_index := (one_le_div hm).mpr hn
    rw [hx]
    linarith
  have hsx : sphere_index = medium_index * (x + 1) := by
    rw [hx]
    field_simp
  simp only [correct_rytov_output, correct_rytov_sc_input, get_params, RSC_PARAMS_42,
    if_pos, Option.map_some', Option.some_bind, reduceIte]
  have key : (-12 / 1000 : ℝ) ^ 2 - 4 * (1936 / 1000) + 2 * (-12 / 1000) + 1 +
      4 / medium_index * (1936 / 1000) *
        (sphere_index + medium_index * (1936 / 1000 * x ^ 2 + -12 / 1000 * x)) =
      (-12 / 1000 + 1 + 2 * (1936 / 1000) * x) ^ 2 := by
    rw [hsx]
    field_simp
    ring
  have hnn : (0 : ℝ) ≤ -12 / 1000 + 1 + 2 * (1936 / 1000) * x := by
    have h2 : (0 : ℝ) ≤ 2 * (1936 / 1000) * x := by positivity
    linarith
  rw [key, Real.sqrt_sq hnn]
  have hnres : medium_index / (2 * (1936 / 1000)) *
      (2 * (1936 / 1000) - -12 / 1000 - 1 + (-12 / 1000 + 1 + 2 * (1936 / 1000) * x)) =
      sphere_index := by
    rw [hsx]
    field_simp
    ring
  rw [hnres]
  rw [← hx]
  rw [Option.some.injEq, Prod.mk.injEq]
  refine ⟨?_, rfl⟩
  exact mul_div_cancel_right₀ radius hpoly

/-- The positive root of the radius-correction polynomial
`ra·x² + rb·x + rc` of `RSC_PARAMS[42]` (`x ≈ 0.50524`). -/
noncomputable def xRoot : ℝ :=
  (Real.sqrt (10300733 / 1000000) - 753 / 1000) / (4862 / 1000)

/-- The sphere index at which the Rytov-SC round trip loses the radius
(for `medium_index = 1`). -/
noncomputable def nRoot : ℝ := 1 + xRoot

/-- C7 counterexample: at `medium_index = 1`, `radius = 1` and
`sphere_index = nRoot` (which satisfies the claim's hypotheses
`medium_index > 0` and `sphere_index ≥ medium_index`), the radius
correction polynomial vanishes, `correct_rytov_output` returns radius
`0`, and the round trip cannot return `(1, nRoot)`. -/
theorem rytov_sc_roundtrip_fails_at_root :
    (0 : ℝ) < 1 ∧ (1 : ℝ) ≤ nRoot ∧
      (correct_rytov_output 1 nRoot 1 42).bind
        (fun p => correct_rytov_sc_input p.1 p.2 1 42) ≠ some (1, nRoot) := by
  have hs : Real.sqrt (10300733 / 1000000) ^ 2 = (10300733 / 1000000 : ℝ) :=
    Real.sq_sqrt (by norm_num)
  have hsge : (753 / 1000 : ℝ) ≤ Real.sqrt (10300733 / 1000000) := by
    nlinarith [Real.sqrt_nonneg (10300733 / 1000000 : ℝ), hs]
  have hx0 : 0 ≤ xRoot := by
    unfold xRoot
    exact div_nonneg (by linarith) (by norm_num)
  refine ⟨by norm_num, by unfold nRoot; linarith, ?_⟩
  have hpoly0 : (-2431 / 1000 : ℝ) * xRoot ^ 2 + -753 / 1000 * xRoot + 1001 / 1000 = 0 := by
    unfold xRoot
    linear_combination (-2431000 / 23639044 : ℝ) * hs
  have hxr : nRoot / 1 - 1 = xRoot := by unfold nRoot; ring
  simp only [correct_rytov_output, correct_rytov_sc_input, get_params, RSC_PARAMS_42,
    Option.map_some', Option.some_bind, reduceIte, hxr]
  rw [hpoly0]
  intro hc
  simp only [mul_zero, zero_div, Option.some.injEq, Prod.mk.injEq] at hc
  exact absurd hc.1 (by norm_num)

/-- Witness for the amended C7 at a concrete input
(`radius = 5`, `sphere_index = 3/2`, `medium_index = 4/3`). -/
theorem rytov_sc_roundtrip_witness :
    (correct_rytov_output 5 (3 / 2) (4 / 3) 42).bind
      (fun p => correct_rytov_sc_input p.1 p.2 (4 / 3) 42) = some (5, 3 / 2) := by
  refine rytov_sc_roundtrip 5 (3 / 2) (4 / 3) (by norm_num) (by norm_num) ?_
  simp only [RSC_PARAMS_42]
  norm_num

/-- C8: on an exact ideal hemispherical profile — `image p = A * h p`
with `h` the clipped height profile and some pixel of nonzero height —
`average_sphere` returns the same value `A` in weighted mode
(`Σ(ρ·h)/Σh`) and in unweighted mode (`Σρ / count(h≠0)`). -/
theorem average_sphere_weighted_eq_unweighted (sx sy : ℕ) (A : ℝ)
    (center : ℝ × ℝ) (radius : ℝ)
    (hne : ∃ p ∈ pixGrid sx sy, heightProfile center radius p ≠ 0) :
    average_sphere sx sy (fun p => A * heightProfile center radius p)
        center radius true = A ∧
      average_sphere sx sy (fun p => A * heightProfile center radius p)
        center radius false = A := by
  classical
  obtain ⟨p0, hp0, hh0⟩ := hne
  have hnn : ∀ p, 0 ≤ heightProfile center radius p := by
    intro p
    unfold heightProfile
    positivity
  have hpos : 0 < heightProfile center radius p0 :=
    lt_of_le_of_ne (hnn p0) (Ne.symm hh0)
  have hsum : (0 : ℝ) < ∑ p ∈ pixGrid sx sy, heightProfile center radius p :=
    Finset.sum_pos' (fun i _ => hnn i) ⟨p0, hp0, hpos⟩
  have hcount : (0 : ℝ) < ∑ p ∈ pixGrid sx sy,
      (if heightProfile center radius p ≠ 0 then (1 : ℝ) else 0) := by
    refine Finset.sum_pos' (fun i _ => by positivity) ⟨p0, hp0, ?_⟩
    rw [if_pos hh0]
    norm_num
  constructor
  · simp only [average_sphere, reduceIte]
    have h1 : ∀ p ∈ pixGrid sx sy,
        (if heightProfile center radius p ≠ 0 then
            (A * heightProfile center radius p) / heightProfile center radius p
          else 0) * heightProfile center radius p =
          A * heightProfile center radius p := by
      intro p _
      by_cases hz : heightProfile center radius p = 0
      · simp [hz]
      · rw [if_pos hz, div_mul_cancel₀]
        exact hz
    rw [Finset.sum_congr rfl h1, ← Finset.mul_sum, mul_div_assoc,
      div_self (ne_of_gt hsum), mul_one]
  · simp only [average_sphere, Bool.false_eq_true, reduceIte]
    have h2 : ∀ p ∈ pixGrid sx sy,
        (if heightProfile center radius p ≠ 0 then
            (A * heightProfile center radius p) / heightProfile center radius p
          else 0) =
          A * (if heightProfile center radius p ≠ 0 then (1 : ℝ) else 0) := by
      intro p _
      by_cases hz : heightProfile center radius p = 0
      · simp [hz]
      · rw [if_pos hz, if_pos hz, mul_one, mul_div_assoc,
          div_self hz, mul_one]
    rw [Finset.sum_congr rfl h2, ← Finset.mul_sum, mul_div_assoc,
      div_self (ne_of_gt hcount), mul_one]

/-- Witness for C8 on a 3×3 grid: center `(1,1)`, radius `1`, `A = 3`
(only the center pixel has nonzero height `2`). -/
theorem average_sphere_weighted_eq_unweighted_witness :
    average_sphere 3 3 (fun p => 3 * heightProfile (1, 1) 1 p) (1, 1) 1 true = 3 ∧
      average_sphere 3 3 (fun p => 3 * heightProfile (1, 1) 1 p) (1, 1) 1 false = 3 := by
  refine average_sphere_weighted_eq_unweighted 3 3 3 (1, 1) 1 ⟨(1, 1), ?_, ?_⟩
  · decide
  · unfold heightProfile
    norm_num [Real.sqrt_one]
